import Mathlib

/-!
Shallow embedding of libfirm's control-flow optimization pass
(`src/ir/opt/cfopt.c`): the collector walk (`collect_nodes`), the
switch-Cond folder (`handle_switch_cond`), the dispensability test
(`test_whether_dispensable`), the block/Phi rewriter (`optimize_blocks`)
and the driver (`optimize_cf`).

Blocks and value nodes are identified by natural numbers.  Mutable
per-node state (block mark, visited flag, Phi link-chains, in-arrays) is
kept in a `Graph` record of total functions.  `exchange` of a value node
is modelled by eager substitution in all Phi in-arrays together with a
log (`exchangedTo`); `exchange(block, Bad)` by a `dead` flag.
Collaborator services appear as data: the dominator service feeds
`idom`, `value_of` on a switch selector feeds an `Option Int`, and the
block walker's visit order is the graph's `blocks` list.  The C loops
are rendered as structural recursion over position and link-chain lists,
threading the graph state exactly as the source mutates it.
-/

namespace Cfopt

abbrev BlockId := Nat
abbrev NodeId := Nat
abbrev Mode := Nat

/-- The control mode `mode_X` (used by `new_r_Bad(irg, mode_X)`). -/
def mode_X : Mode := 1

/-- A control-flow predecessor slot of a block (`get_Block_cfgpred`):
either a `Bad` marker or a control edge produced in block `src`;
`unknown` marks an unknown indirect jump (`is_unknown_jump`). -/
inductive CfgPred where
  | bad : CfgPred
  | edge (src : BlockId) (unknown : Bool) : CfgPred
deriving DecidableEq

/-- A value operand: a `Bad` of some mode or a reference to a value node. -/
inductive Val where
  | bad (m : Mode) : Val
  | node (n : NodeId) : Val
deriving DecidableEq

/-- Per-block state.  `removable` is the block mark set by
`set_Block_removable`, `visited` the walker's `Block_block_visited` flag,
`phis` the Phi link-chain rooted at the block (`get_irn_link(block)`),
`dead` records `exchange(block, Bad)`.  `onlyJmpPhis` and `hasEntity`
summarise the block's contents for the collector: whether every node
homed in the block is a `Jmp` or a `Phi`, and `has_Block_entity`. -/
structure Block where
  preds : List CfgPred := []
  phis : List NodeId := []
  removable : Bool := false
  visited : Bool := false
  dead : Bool := false
  onlyJmpPhis : Bool := false
  hasEntity : Bool := false
deriving DecidableEq

/-- A switch-Cond as collected by `collect_nodes`: the block of the Cond,
the case labels (`get_Proj_proj`) of the Projs on its link-chain in chain
order, the `value_of` result for the selector (`none` = `tarval_bad`),
and `get_Cond_default_proj`. -/
structure SwitchCond where
  inBlock : BlockId
  chain : List Int
  selVal : Option Int
  defaultPn : Int
deriving DecidableEq

/-- An `exchange` performed by `handle_switch_cond`: a Proj (named by its
case label) replaced by a fresh `Jmp` in a block, or by `Bad` of control
mode. -/
inductive SwAct where
  | toJmp (pn : Int) (inBlock : BlockId) : SwAct
  | toBad (pn : Int) : SwAct
deriving DecidableEq

/-- Result of `handle_switch_cond`: the exchanges in program order, the
boolean return value, and whether the `assert` conditions held. -/
structure SwResult where
  acts : List SwAct
  changed : Bool
  assertOk : Bool
deriving DecidableEq

/-- `handle_switch_cond` (cfopt.c lines 488-551).  With one Proj left the
Proj is turned into a `Jmp` in the Cond's block (the code asserts that it
is the default Proj).  With two Projs and a constant selector the code
first determines the default by comparing `get_Cond_default_proj` with
the two labels and folds only when the checked label matches the
constant.  An empty chain cannot occur for a collected Cond (its Projs
were linked by the collector); it is mapped to the no-change result. -/
def handle_switch_cond (c : SwitchCond) : SwResult :=
  match c.chain with
  | [] => { acts := [], changed := false, assertOk := true }
  | [p1] =>
      { acts := [SwAct.toJmp p1 c.inBlock], changed := true,
        assertOk := c.defaultPn == p1 }
  | [p1, p2] =>
      match c.selVal with
      | none => { acts := [], changed := false, assertOk := true }
      | some num =>
        if c.defaultPn = p1 then
          if num = p2 then
            { acts := [SwAct.toJmp p2 c.inBlock, SwAct.toBad p1],
              changed := true, assertOk := true }
          else { acts := [], changed := false, assertOk := true }
        else if c.defaultPn = p2 then
          if num = p1 then
            { acts := [SwAct.toJmp p1 c.inBlock, SwAct.toBad p2],
              changed := true, assertOk := true }
          else { acts := [], changed := false, assertOk := true }
        else
          if num = p1 then
            { acts := [SwAct.toJmp p1 c.inBlock, SwAct.toBad p2],
              changed := true, assertOk := true }
          else if num = p2 then
            { acts := [SwAct.toJmp p2 c.inBlock, SwAct.toBad p1],
              changed := true, assertOk := true }
          else { acts := [], changed := false, assertOk := true }
  | _ => { acts := [], changed := false, assertOk := true }

/-! ### The collector walk (`clear_link` / `collect_nodes`) -/

/-- Node kinds as the collector distinguishes them: `is_Phi`, `is_Block`,
`is_Jmp`, `is_Proj`, `is_Cond` with boolean selector, `is_Cond` with
non-boolean selector (a switch), an unknown indirect jump (not a `Jmp`!),
and anything else. -/
inductive NKind where
  | phi | blockNode | jmp | proj | condBool | condSwitch | ijmp | other
deriving DecidableEq

/-- A node as seen by the collector walk.  `homeBlock` is
`get_nodes_block`; `parent` is `get_Proj_pred` for a Proj and the target
block for an unknown indirect jump (used only to spell out, for
comparison with the spec, which blocks are unknown-jump targets);
`entity` is `has_Block_entity` for a Block node (whose `homeBlock` is
itself). -/
structure CNode where
  id : Nat
  kind : NKind
  homeBlock : Nat
  parent : Nat := 0
  entity : Bool := false
deriving DecidableEq

/-- Collector state: block marks, Phi link-chains per block, Proj chains
per parent node, and the switch-Cond worklist (appended in walk order). -/
structure CState where
  removable : Nat → Bool
  blockPhis : Nat → List Nat
  projChain : Nat → List Nat
  conds : List Nat

/-- State after `clear_link` ran on every node: links null, every block
marked removable. -/
def collectInit : CState :=
  { removable := fun _ => true
    blockPhis := fun _ => []
    projChain := fun _ => []
    conds := [] }

/-- One step of `collect_nodes` (cfopt.c lines 94-124). -/
def collect_nodes (s : CState) (n : CNode) : CState :=
  match n.kind with
  | NKind.phi =>
      { s with blockPhis := fun b =>
          if b = n.homeBlock then n.id :: s.blockPhis b else s.blockPhis b }
  | NKind.blockNode =>
      if n.entity then
        { s with removable := fun b => if b = n.id then false else s.removable b }
      else s
  | NKind.jmp => s
  | NKind.proj =>
      let s1 := { s with removable := fun b =>
          if b = n.homeBlock then false else s.removable b }
      { s1 with projChain := fun p =>
          if p = n.parent then n.id :: s1.projChain p else s1.projChain p }
  | NKind.condBool =>
      { s with removable := fun b => if b = n.homeBlock then false else s.removable b }
  | NKind.condSwitch =>
      let s1 := { s with removable := fun b =>
          if b = n.homeBlock then false else s.removable b }
      { s1 with conds := s1.conds ++ [n.id] }
  | NKind.ijmp =>
      { s with removable := fun b => if b = n.homeBlock then false else s.removable b }
  | NKind.other =>
      { s with removable := fun b => if b = n.homeBlock then false else s.removable b }

/-- One collector walk over all reachable nodes. -/
def runCollector (nodes : List CNode) : CState :=
  nodes.foldl collect_nodes collectInit

/-- Kinds whose presence marks the home block non-removable
(everything that is neither a Phi, a Block, nor a plain Jmp). -/
def marksHome : NKind → Bool
  | NKind.phi => false
  | NKind.blockNode => false
  | NKind.jmp => false
  | _ => true

/-- A node does not cause block `B` to be marked non-removable. -/
def noMark (B : Nat) (n : CNode) : Bool :=
  match n.kind with
  | NKind.phi => true
  | NKind.jmp => true
  | NKind.blockNode => !(n.id == B && n.entity)
  | _ => !(n.homeBlock == B)

/-- The blocks that are targets of an unknown indirect jump. -/
def unknownTargets (nodes : List CNode) : List Nat :=
  nodes.filterMap fun n => if n.kind = NKind.ijmp then some n.parent else none

/-- Follows the spec's words (§4.2): after the walk, removable exactly
when the block is empty (only a jump and possibly join nodes), has no
pinned entity, and is not a branch target via an unknown-jump
indirection.  Stated for comparison with `runCollector`. -/
def specRemovable (nodes : List CNode) (B : Nat) : Bool :=
  (nodes.all fun n => noMark B n) && !((unknownTargets nodes).contains B)

/-! ### The graph state for the rewrite pass -/

/-- The procedure graph as the rewrite pass sees it.  `blocks` doubles as
the block walker's visit order; `blk` holds per-block state; `nodeBlock`
is `get_nodes_block` on value nodes; `phiIns`/`phiMode` are
`get_Phi_pred`/`get_irn_mode`; `phiIds` lists all Phi nodes (used when
the collector rebuilds the per-block chains); `exchangedTo` logs
`exchange` on value nodes; `idom` is the dominator service's
`get_Block_idom`; `switchConds` the collected switch-Conds. -/
structure Graph where
  blocks : List BlockId
  blk : BlockId → Block
  nodeBlock : NodeId → BlockId
  phiIns : NodeId → List Val
  phiMode : NodeId → Mode
  phiIds : List NodeId
  exchangedTo : NodeId → Option Val
  idom : BlockId → Option BlockId
  switchConds : List SwitchCond

/-- Environment threaded through the walkers (`merge_env`). -/
structure Env where
  changed : Bool
  phis_moved : Bool
deriving DecidableEq

/-- Update one block's state. -/
def setBlk (g : Graph) (b : BlockId) (f : Block → Block) : Graph :=
  { g with blk := fun x => if x = b then f (g.blk x) else g.blk x }

/-- `set_Block_removable(block, false)`. -/
def markNonRemovable (g : Graph) (b : BlockId) : Graph :=
  setBlk g b fun bl => { bl with removable := false }

/-- `exchange(block, new_r_Bad(irg, mode_BB))`: the block node is gone. -/
def markDead (g : Graph) (b : BlockId) : Graph :=
  setBlk g b fun bl => { bl with dead := true }

/-- The test `is_Block_removable(pred) && !Block_block_visited(pred)`
that selects a dispensable predecessor block in `optimize_blocks`. -/
def dispensableHere (g : Graph) (p : BlockId) : Bool :=
  (g.blk p).removable && !(g.blk p).visited

/-- `is_pred_of` (cfopt.c lines 127-137): whether `pred` occurs among the
cfgpred blocks of `b` (`get_Block_cfgpred_block` yields the Bad node for
a Bad slot, which equals no block). -/
def is_pred_of (g : Graph) (pred b : BlockId) : Bool :=
  (g.blk b).preds.any fun cp =>
    match cp with
    | CfgPred.bad => false
    | CfgPred.edge s _ => s == pred

/-- The pairwise-disjointness check of `test_whether_dispensable`
(cfopt.c lines 189-211), run only when `b` has Phi nodes: positions
before `pos` are treated as already removed (recursing through their
preds when dispensable), positions after `pos` are compared directly. -/
def mergeConflict (g : Graph) (b : BlockId) (pos : Nat) (predb : BlockId) : Bool :=
  (((g.blk b).preds.take pos).any fun cp =>
    match cp with
    | CfgPred.bad => false
    | CfgPred.edge otherPredb _ =>
      if (g.blk otherPredb).removable && !(g.blk otherPredb).visited then
        (g.blk otherPredb).preds.any fun cpp =>
          match cpp with
          | CfgPred.bad => false
          | CfgPred.edge opp _ => is_pred_of g opp predb
      else is_pred_of g otherPredb predb)
  || (((g.blk b).preds.drop (pos + 1)).any fun cp =>
    match cp with
    | CfgPred.bad => false
    | CfgPred.edge otherPredb _ => is_pred_of g otherPredb predb)

/-- `test_whether_dispensable` (cfopt.c lines 166-222).  Returns the
number of predecessors the slot contributes and the graph with the
block mark possibly updated (the `non_dispensable:` label sets
`removable := false`; the Bad-slot, already-non-removable and
already-visited paths return without touching the mark). -/
def test_whether_dispensable (g : Graph) (b : BlockId) (pos : Nat) : Nat × Graph :=
  match (g.blk b).preds[pos]? with
  | none => (1, g)
  | some CfgPred.bad => (1, g)
  | some (CfgPred.edge predb unk) =>
    if !(g.blk predb).removable then (1, g)
    else if predb = b then (1, markNonRemovable g predb)
    else if unk then (1, markNonRemovable g predb)
    else if (g.blk b).phis ≠ [] ∧ mergeConflict g b pos predb = true then
      (1, markNonRemovable g predb)
    else if (g.blk predb).visited then (1, g)
    else ((g.blk predb).preds.length, g)

/-- The `max_preds` loop of `optimize_blocks` (cfopt.c lines 280-283),
over a list of positions. -/
def oracle_go (b : BlockId) : Graph → List Nat → Nat × Graph
  | g, [] => (0, g)
  | g, pos :: rest =>
      let r := test_whether_dispensable g b pos
      let r2 := oracle_go b r.2 rest
      (r.1 + r2.1, r2.2)

/-- The full `max_preds` computation over all cfgpred positions of `b`. -/
def oraclePass (g : Graph) (b : BlockId) : Nat × Graph :=
  oracle_go b g (List.range (g.blk b).preds.length)

/-- `get_Phi_pred(phi, i)` (out-of-range slots cannot occur on the runs
the source performs; they yield a Bad). -/
def phiInAt (g : Graph) (phi : NodeId) (i : Nat) : Val :=
  ((g.phiIns phi).get? i).getD (Val.bad 0)

/-- Substitution performed by `exchange(old, v)` on a single operand. -/
def substVal (old : NodeId) (v : Val) : Val → Val
  | Val.node n => if n = old then v else Val.node n
  | Val.bad m => Val.bad m

/-- `exchange(old, v)` for a value node: rewrite every Phi operand and
log the replacement. -/
def exchangeNode (g : Graph) (old : NodeId) (v : Val) : Graph :=
  { g with
    exchangedTo := fun x => if x = old then some v else g.exchangedTo x
    phiIns := fun x => (g.phiIns x).map (substVal old v) }

/-- Commit a freshly computed in-array to a Phi: a single entry triggers
`exchange(phi, in[0])`, otherwise `set_irn_in(phi, p_preds, in)`
(cfopt.c lines 330-333 and 412-415). -/
def applyNewIns (g : Graph) (phi : NodeId) (ins : List Val) : Graph :=
  match ins with
  | [v] => exchangeNode g phi v
  | _ => { g with phiIns := fun x => if x = phi then ins else g.phiIns x }

/-- Phase A: the new in-array of a Phi of `b` (cfopt.c lines 291-326).
Per position: a Bad slot yields a Bad of the Phi's mode; a dispensable
predecessor is expanded into one entry per its cfgpreds — Bad for a Bad,
the inner Phi's operand when the Phi operand lives in the removed block
(case 2a), the operand unchanged otherwise (case 2b); a kept predecessor
contributes the operand unchanged. -/
def phaseA_newIns (g : Graph) (b : BlockId) (phi : NodeId) : List Val :=
  ((g.blk b).preds.enum).flatMap fun pr =>
    match pr.2 with
    | CfgPred.bad => [Val.bad (g.phiMode phi)]
    | CfgPred.edge p _ =>
      if dispensableHere g p then
        let phiPred := phiInAt g phi pr.1
        ((g.blk p).preds.enum).flatMap fun qr =>
          match qr.2 with
          | CfgPred.bad => [Val.bad (g.phiMode phi)]
          | CfgPred.edge _ _ =>
            match phiPred with
            | Val.node pn =>
              if g.nodeBlock pn = p then [phiInAt g pn qr.1] else [Val.node pn]
            | Val.bad m => [Val.bad m]
      else [phiInAt g phi pr.1]

/-- Phase A over the Phi link-chain of `b` (cfopt.c lines 287-335). -/
def phaseA_go (b : BlockId) : Graph → Env → List NodeId → Graph × Env
  | g, env, [] => (g, env)
  | g, env, phi :: rest =>
      let ins := phaseA_newIns g b phi
      phaseA_go b (applyNewIns g phi ins) { env with changed := true } rest

/-- Phase A entry point. -/
def phaseA (g : Graph) (b : BlockId) (env : Env) : Graph × Env :=
  phaseA_go b g env (g.blk b).phis

/-- `set_nodes_block(phi, b)` plus prepending to `b`'s link-chain
(cfopt.c lines 364-366). -/
def movePhi (g : Graph) (b : BlockId) (phi : NodeId) : Graph :=
  let g1 := { g with nodeBlock := fun x => if x = phi then b else g.nodeBlock x }
  setBlk g1 b fun bl => { bl with phis := phi :: bl.phis }

/-- Phase B: the `q_preds` in-array for a Phi moved out of the
predecessor at position `k` (cfopt.c lines 369-409).  Positions before
`k`: a Bad slot contributes the Bad block node itself; a dispensable
predecessor contributes one copy of the Phi per non-Bad cfgpred (its
Bad cfgpreds are skipped!); a kept one contributes the Phi.  At `k` the
Phi's own operands are spliced in.  Positions after `k` are as before
`k` except that a Bad slot contributes a fresh Bad of the Phi's mode. -/
def phaseB_qIns (g : Graph) (b : BlockId) (k : Nat) (phi : NodeId) : List Val :=
  let before := ((g.blk b).preds.take k).flatMap fun cp =>
    match cp with
    | CfgPred.bad => [Val.bad mode_X]
    | CfgPred.edge p _ =>
      if dispensableHere g p then
        (g.blk p).preds.flatMap fun cpp =>
          match cpp with
          | CfgPred.bad => []
          | CfgPred.edge _ _ => [Val.node phi]
      else [Val.node phi]
  let after := ((g.blk b).preds.drop (k + 1)).flatMap fun cp =>
    match cp with
    | CfgPred.bad => [Val.bad (g.phiMode phi)]
    | CfgPred.edge p _ =>
      if dispensableHere g p then
        (g.blk p).preds.flatMap fun cpp =>
          match cpp with
          | CfgPred.bad => []
          | CfgPred.edge _ _ => [Val.node phi]
      else [Val.node phi]
  before ++ g.phiIns phi ++ after

/-- Phase B over the Phi link-chain of the dispensable predecessor
`predb` at position `k` (cfopt.c lines 350-421): when `predb` is not the
immediate dominator of `b` each Phi is exchanged for a Bad of its mode;
otherwise it is moved into `b`, `phis_moved` is recorded, and its new
in-array is committed. -/
def phaseB_phis_go (b : BlockId) (k : Nat) (predb : BlockId) :
    Graph → Env → List NodeId → Graph × Env
  | g, env, [] => (g, env)
  | g, env, phi :: rest =>
      if g.idom b ≠ some predb then
        phaseB_phis_go b k predb
          (exchangeNode g phi (Val.bad (g.phiMode phi))) env rest
      else
        let g1 := movePhi g b phi
        let env1 : Env := { env with phis_moved := true }
        let qIns := phaseB_qIns g1 b k phi
        phaseB_phis_go b k predb (applyNewIns g1 phi qIns)
          { env1 with changed := true } rest

/-- Phase B's handling of one cfgpred position of `b` (cfopt.c lines
340-349): only a non-Bad slot whose block is removable and unvisited is
processed. -/
def phaseB_step (g : Graph) (b : BlockId) (env : Env) (k : Nat) : Graph × Env :=
  match (g.blk b).preds[k]? with
  | some (CfgPred.edge predb _) =>
      if dispensableHere g predb then
        phaseB_phis_go b k predb g env (g.blk predb).phis
      else (g, env)
  | _ => (g, env)

/-- Phase B over a list of positions. -/
def phaseB_go (b : BlockId) : Graph → Env → List Nat → Graph × Env
  | g, env, [] => (g, env)
  | g, env, k :: rest =>
      let r := phaseB_step g b env k
      phaseB_go b r.1 r.2 rest

/-- Phase B entry point. -/
def phaseB (g : Graph) (b : BlockId) (env : Env) : Graph × Env :=
  phaseB_go b g env (List.range (g.blk b).preds.length)

/-- The `n_preds` block-rewrite loop (cfopt.c lines 426-456) over the
remaining cfgpred slots: a Bad slot stays a Bad; a dispensable
predecessor is spliced (its cfgpreds copied, Bads staying Bads) and the
predecessor block and its jump are exchanged for Bads; any other slot is
kept. -/
def blockFix_go : Graph → List CfgPred → List CfgPred × Graph
  | g, [] => ([], g)
  | g, cp :: rest =>
    match cp with
    | CfgPred.bad =>
        let r := blockFix_go g rest
        (CfgPred.bad :: r.1, r.2)
    | CfgPred.edge predb unk =>
        if dispensableHere g predb then
          let spliced := (g.blk predb).preds
          let r := blockFix_go (markDead g predb) rest
          (spliced ++ r.1, r.2)
        else
          let r := blockFix_go g rest
          (CfgPred.edge predb unk :: r.1, r.2)

/-- The block rewrite: commit the new cfgpred vector with
`set_irn_in(b, n_preds, in)` and set `env->changed` unconditionally
(cfopt.c lines 459-460). -/
def blockFix (g : Graph) (b : BlockId) (env : Env) : Graph × Env :=
  let r := blockFix_go g (g.blk b).preds
  (setBlk r.2 b fun bl => { bl with preds := r.1 },
   { env with changed := true })

/-- `optimize_blocks` (cfopt.c lines 271-465): the `max_preds` oracle
loop (whose marks persist), Phase A on `b`'s own Phis, Phase B on the
Phis of dispensable predecessors, then the block rewrite. -/
def optimize_blocks (g : Graph) (b : BlockId) (env : Env) : Graph × Env :=
  let r0 := oraclePass g b
  let r1 := phaseA r0.2 b env
  let r2 := phaseB r1.1 b r1.2
  blockFix r2.1 b r2.2

/-! ### The driver (`optimize_cf`) -/

/-- One visit of the block walker: a block already exchanged for Bad is
not reachable and not visited; otherwise the walker marks it visited and
runs the pre-callback `optimize_blocks`. -/
def visitBlock (g : Graph) (env : Env) (b : BlockId) : Graph × Env :=
  if (g.blk b).dead then (g, env)
  else
    let g1 := setBlk g b fun bl => { bl with visited := true }
    optimize_blocks g1 b env

/-- `irg_block_walk_graph` with pre-callback `optimize_blocks`, over the
visit order. -/
def blockWalk : Graph → Env → List BlockId → Graph × Env
  | g, env, [] => (g, env)
  | g, env, b :: rest =>
      let r := visitBlock g env b
      blockWalk r.1 r.2 rest

/-- Modelled from the spec: `equivalent_node` on a Block (the "local
simplifier" collaborator of §6, implemented outside this repository's
sources in `iropt.c`), used by `remove_simple_blocks`, which per the
code's comment "removes Blocks with only a Jmp predecessor": a block
whose whole cfgpred vector is a single plain jump from a block reduces
to that block; anything else reduces to itself. -/
def equivalent_block (g : Graph) (b : BlockId) : BlockId :=
  match (g.blk b).preds with
  | [CfgPred.edge q false] => q
  | _ => b

/-- Redirect the source of control edges after `exchange(block, q)`. -/
def redirectSrc (old nb : BlockId) : CfgPred → CfgPred
  | CfgPred.bad => CfgPred.bad
  | CfgPred.edge s u => CfgPred.edge (if s = old then nb else s) u

/-- Apply the control-edge redirection of `exchange(block, q)` to every
cfgpred slot of the graph. -/
def redirectAll (g : Graph) (old nb : BlockId) : Graph :=
  { g with blk := fun x =>
      let bl := g.blk x
      { bl with preds := bl.preds.map (redirectSrc old nb) } }

/-- `remove_simple_blocks` (cfopt.c lines 471-480): replace the block by
`equivalent_node` of it when that differs, recording the change. -/
def remove_simple_blocks (g : Graph) (b : BlockId) (env : Env) : Graph × Env :=
  if (g.blk b).dead then (g, env)
  else
    let nb := equivalent_block g b
    if nb = b then (g, env)
    else (markDead (redirectAll g b nb) b, { env with changed := true })

/-- The post-callback walk of `remove_simple_blocks`. -/
def removeSimpleWalk : Graph → Env → List BlockId → Graph × Env
  | g, env, [] => (g, env)
  | g, env, b :: rest =>
      let r := remove_simple_blocks g b env
      removeSimpleWalk r.1 r.2 rest

/-- The collector walk's effect on the graph state used by the rewrite:
marks reset from the blocks' contents (`clear_link` makes every block
removable, `collect_nodes` clears the mark on blocks with an entity or
with a node that is neither Jmp nor Phi), visited flags cleared, and the
Phi link-chains rebuilt from the surviving Phis' home blocks. -/
def collectorReset (g : Graph) : Graph :=
  { g with blk := fun b =>
      let bl := g.blk b
      { bl with
        removable := bl.onlyJmpPhis && !bl.hasEntity
        visited := false
        phis := g.phiIds.filter fun p =>
          g.nodeBlock p == b && (g.exchangedTo p).isNone } }

/-- One round of `handle_switch_cond` over the collected worklist
(cfopt.c lines 601-605).  A folded Cond's Projs are exchanged for a Jmp
or Bads, so the Cond is unreachable on the next collector walk and drops
off the worklist; unfolded Conds are collected again. -/
def foldConds (g : Graph) : Graph × Bool :=
  let changed := g.switchConds.any fun c => (handle_switch_cond c).changed
  let remaining := g.switchConds.filter fun c => !(handle_switch_cond c).changed
  ({ g with switchConds := remaining }, changed)

/-- The driver's fixpoint loop (cfopt.c lines 590-613): collector walk,
then the switch folds; exit when nothing folded.  Fuelled structural
recursion (the driver supplies more fuel than there are Conds, and each
looping round folds at least one Cond away). -/
def switchLoop : Nat → Graph → Graph
  | 0, g => g
  | fuel + 1, g =>
      let g1 := collectorReset g
      let r := foldConds g1
      if r.2 then switchLoop fuel r.1 else r.1

/-- The driver state of the graph when the block walk starts. -/
def cfPrep (g : Graph) : Graph :=
  switchLoop (g.switchConds.length + 1) g

/-- Result of `optimize_cf`: the rewritten graph, the final
`env.changed` and `env.phis_moved`, and which caches the driver
invalidated (cfopt.c lines 669-674). -/
structure CfResult where
  graph : Graph
  changed : Bool
  phis_moved : Bool
  domsInvalidated : Bool
  extblkInvalidated : Bool
  entityUsageInvalidated : Bool

/-- The blocks still present in the graph (not exchanged for Bad). -/
def liveBlocks (g : Graph) : List BlockId :=
  g.blocks.filter fun b => !(g.blk b).dead

/-- `optimize_cf` (cfopt.c lines 568-675): the collector/switch-fold
fixpoint loop (after which `env.changed` and `env.phis_moved` are
false), then the block walk with `optimize_blocks` (pre) and
`remove_simple_blocks` (post), then the cache invalidations when
anything changed.  The End keep-alive tidy-up only prunes the End node's
keep-alive list and can only set `changed`, which the block walk has
already set whenever a block was visited; it is not modelled. -/
def optimize_cf (g : Graph) : CfResult :=
  let g1 := cfPrep g
  let r2 := blockWalk g1 { changed := false, phis_moved := false } g1.blocks
  let r3 := removeSimpleWalk r2.1 r2.2 r2.1.blocks
  { graph := r3.1
    changed := r3.2.changed
    phis_moved := r3.2.phis_moved
    domsInvalidated := r3.2.changed
    extblkInvalidated := r3.2.changed
    entityUsageInvalidated := r3.2.changed }

/-! ### Invariants and relations used by the proofs -/

/-- Failing input for the moved-Phi arity invariant: block `100` has two
dispensable empty predecessors, `1` (whose only cfgpred is Bad, so it is
CFG-unreachable) and `2` (= `idom(100)`, holding Phi `50` with two
operands).  Phase B moves Phi `50` into `100` but its `q_preds` loop
skips the Bad cfgpred of block `1`, while the `n_preds` block rewrite
emits a Bad entry for it. -/
def gC1 : Graph where
  blocks := [100, 1, 2, 3, 4]
  blk := fun b =>
    if b = 100 then { preds := [CfgPred.edge 1 false, CfgPred.edge 2 false] }
    else if b = 1 then { preds := [CfgPred.bad], onlyJmpPhis := true }
    else if b = 2 then
      { preds := [CfgPred.edge 3 false, CfgPred.edge 4 false], onlyJmpPhis := true }
    else {}
  nodeBlock := fun n => if n = 50 then 2 else 0
  phiIns := fun n => if n = 50 then [Val.node 60, Val.node 61] else []
  phiMode := fun _ => 7
  phiIds := [50]
  exchangedTo := fun _ => none
  idom := fun b => if b = 100 then some 2 else none
  switchConds := []

/-- A procedure consisting of a single (end-) block. -/
def gOne : Graph where
  blocks := [0]
  blk := fun _ => {}
  nodeBlock := fun _ => 0
  phiIns := fun _ => []
  phiMode := fun _ => 0
  phiIds := []
  exchangedTo := fun _ => none
  idom := fun _ => none
  switchConds := []

/-- Another single-block procedure (block id 9). -/
def gOne2 : Graph where
  blocks := [9]
  blk := fun _ => {}
  nodeBlock := fun _ => 0
  phiIns := fun _ => []
  phiMode := fun _ => 0
  phiIds := []
  exchangedTo := fun _ => none
  idom := fun _ => none
  switchConds := []

/-- A single-block procedure (block id 4) for the C10 witness. -/
def gTen : Graph where
  blocks := [4]
  blk := fun _ => {}
  nodeBlock := fun _ => 0
  phiIns := fun _ => []
  phiMode := fun _ => 0
  phiIds := []
  exchangedTo := fun _ => none
  idom := fun _ => none
  switchConds := []

/-- Counterexample input for the memoization claim: block `0` has the
removable but already-visited predecessor `1`. -/
def gC4x : Graph where
  blocks := [0, 1]
  blk := fun b =>
    if b = 0 then { preds := [CfgPred.edge 1 false] }
    else if b = 1 then { removable := true, visited := true }
    else {}
  nodeBlock := fun _ => 0
  phiIns := fun _ => []
  phiMode := fun _ => 0
  phiIds := []
  exchangedTo := fun _ => none
  idom := fun _ => none
  switchConds := []

/-- A block `0` whose cfgpreds exercise the Bad, non-removable,
self-loop, unknown-jump and already-visited paths of
`test_whether_dispensable` at positions 0..4. -/
def gC4w : Graph where
  blocks := [0, 1, 2, 3]
  blk := fun b =>
    if b = 0 then
      { preds := [CfgPred.bad, CfgPred.edge 1 false, CfgPred.edge 0 false,
                  CfgPred.edge 2 true, CfgPred.edge 3 false],
        removable := true }
    else if b = 1 then { removable := false }
    else if b = 2 then { removable := true }
    else if b = 3 then { removable := true, visited := true }
    else {}
  nodeBlock := fun _ => 0
  phiIns := fun _ => []
  phiMode := fun _ => 0
  phiIds := []
  exchangedTo := fun _ => none
  idom := fun _ => none
  switchConds := []

/-- A join-input merge conflict: block `0` carries Phi `77` and its
removable predecessor `11` has `10`, the block of the cfgpred before it,
among its own cfgpred blocks. -/
def gC4c : Graph where
  blocks := [0, 10, 11]
  blk := fun b =>
    if b = 0 then
      { preds := [CfgPred.edge 10 false, CfgPred.edge 11 false], phis := [77] }
    else if b = 11 then { preds := [CfgPred.edge 10 false], removable := true }
    else {}
  nodeBlock := fun _ => 0
  phiIns := fun _ => []
  phiMode := fun _ => 0
  phiIds := []
  exchangedTo := fun _ => none
  idom := fun _ => none
  switchConds := []

/-- Phase-B witness input: block `0` has dispensable predecessors `1`
(not the idom; its Phi `40` is killed) and `2` (= `idom(0)`; its Phi
`41` is moved). -/
def gC7w : Graph where
  blocks := [0, 1, 2]
  blk := fun b =>
    if b = 0 then { preds := [CfgPred.edge 1 false, CfgPred.edge 2 false] }
    else if b = 1 then
      { preds := [CfgPred.edge 9 false], phis := [40], removable := true }
    else if b = 2 then
      { preds := [CfgPred.edge 9 false], phis := [41], removable := true }
    else {}
  nodeBlock := fun n => if n = 40 then 1 else if n = 41 then 2 else 0
  phiIns := fun n =>
    if n = 40 then [Val.node 60] else if n = 41 then [Val.node 61] else []
  phiMode := fun n => if n = 40 then 3 else 4
  phiIds := [40, 41]
  exchangedTo := fun _ => none
  idom := fun b => if b = 0 then some 2 else none
  switchConds := []

/-- Two Projs left (labels 5 and 7), constant selector 5, and the
branch's default Proj number is 5: the selector matches the default
projection's own label and not the other one. -/
def c3cond : SwitchCond where
  inBlock := 3
  chain := [5, 7]
  selVal := some 5
  defaultPn := 5

/-- Default is the first Proj (label 2), selector 2 matches it only. -/
def c3condW : SwitchCond where
  inBlock := 4
  chain := [2, 9]
  selVal := some 2
  defaultPn := 2

/-- Default is the second Proj (label 9), selector 9 matches it only. -/
def c3condW2 : SwitchCond where
  inBlock := 4
  chain := [2, 9]
  selVal := some 9
  defaultPn := 9

/-- A single remaining (default) Proj with label 3. -/
def c8cond : SwitchCond where
  inBlock := 2
  chain := [3]
  selVal := none
  defaultPn := 3

/-- Two Projs (labels 4 and 6), default number 0 matching neither,
constant selector 4. -/
def c9cond : SwitchCond where
  inBlock := 1
  chain := [4, 6]
  selVal := some 4
  defaultPn := 0

/-- As `c9cond` with constant selector 6. -/
def c9cond2 : SwitchCond where
  inBlock := 1
  chain := [4, 6]
  selVal := some 6
  defaultPn := 0

/-- As `c9cond` with constant selector 5, matching neither label. -/
def c9cond3 : SwitchCond where
  inBlock := 1
  chain := [4, 6]
  selVal := some 5
  defaultPn := 0

/-- Collector input: block `20` holds only its jump `30`; block `10`
holds the unknown indirect jump `31` whose target is `20`. -/
def c5nodes : List CNode :=
  [ { id := 20, kind := NKind.blockNode, homeBlock := 20 },
    { id := 30, kind := NKind.jmp, homeBlock := 20 },
    { id := 10, kind := NKind.blockNode, homeBlock := 10 },
    { id := 31, kind := NKind.ijmp, homeBlock := 10, parent := 20 } ]

/-! ### Lemmas: the collector -/

theorem collect_nodes_removable (s : CState) (n : CNode) (B : Nat) :
    (collect_nodes s n).removable B = (s.removable B && noMark B n) := by
  obtain ⟨nid, kind, hb, par, ent⟩ := n
  have hhome : ((if B = hb then false else s.removable B) : Bool)
      = (s.removable B && !(hb == B)) := by
    by_cases hB : B = hb
    · subst hB; simp
    · have h1 : (hb == B) = false := by
        simpa [beq_iff_eq] using fun h => hB h.symm
      simp [hB, h1]
  cases kind
  case phi => simp [collect_nodes, noMark]
  case jmp => simp [collect_nodes, noMark]
  case blockNode =>
    simp only [collect_nodes, noMark]
    by_cases he : ent = true
    · subst he
      by_cases hB : B = nid
      · subst hB; simp
      · have h1 : (nid == B) = false := by
          simpa [beq_iff_eq] using fun h => hB h.symm
        simp [hB, h1]
    · have hf : ent = false := by simpa using he
      subst hf; simp
  case proj =>
    simpa [collect_nodes, noMark] using hhome
  case condBool =>
    simpa [collect_nodes, noMark] using hhome
  case condSwitch =>
    simpa [collect_nodes, noMark] using hhome
  case ijmp =>
    simpa [collect_nodes, noMark] using hhome
  case other =>
    simpa [collect_nodes, noMark] using hhome

theorem runCollector_removable (nodes : List CNode) (B : Nat) :
    (runCollector nodes).removable B = nodes.all (noMark B) := by
  suffices h : ∀ s : CState,
      ((nodes.foldl collect_nodes s).removable B) = (s.removable B && nodes.all (noMark B)) by
    simpa [runCollector, collectInit] using h collectInit
  induction nodes with
  | nil => intro s; simp
  | cons n t ih =>
      intro s
      simp [List.foldl_cons, List.all_cons, ih, collect_nodes_removable, Bool.and_assoc]

theorem noMark_iff (B : Nat) (n : CNode) :
    noMark B n = true ↔
      ((n.kind = NKind.blockNode → n.id = B → n.entity = false) ∧
       (n.homeBlock = B → marksHome n.kind = false)) := by
  obtain ⟨nid, kind, hb, par, ent⟩ := n
  cases kind <;>
    (simp [noMark, marksHome, beq_iff_eq]; try tauto)

/-! ### Claim theorems: collector and switch folder -/

/-- C5 (amended): after one collector walk (`clear_link` then
`collect_nodes` over all reachable nodes), a block `B` has
`removable(B) = true` if and only if no node of the walk marks it: the
block node for `B` carries no entity and every non-Block node homed in
`B` is a plain `Jmp` or a `Phi`.  (Being the target of an unknown
indirect jump does not enter: the collector marks only the unknown
jump's *own* block; targets are rejected later, in
`test_whether_dispensable`.) -/
theorem C5_removable_iff_empty_and_no_entity (nodes : List CNode) (B : Nat) :
    (runCollector nodes).removable B = true ↔
      ∀ n ∈ nodes,
        (n.kind = NKind.blockNode → n.id = B → n.entity = false) ∧
        (n.homeBlock = B → marksHome n.kind = false) := by
  rw [runCollector_removable, List.all_eq_true]
  exact forall₂_congr fun n _ => noMark_iff B n

theorem C5_witness :
    (runCollector c5nodes).removable 20 = true ↔
      ∀ n ∈ c5nodes,
        (n.kind = NKind.blockNode → n.id = 20 → n.entity = false) ∧
        (n.homeBlock = 20 → marksHome n.kind = false) :=
  C5_removable_iff_empty_and_no_entity c5nodes 20

/-- C5 counterexample: block `20` is empty (only its jump) and has no
entity but is the target of the unknown indirect jump `31`; the claim
says `removable(20)` must then be false after the walk, yet the
collector leaves it true — only the spec-following predicate
`specRemovable` is false. -/
theorem C5_counterexample_unknown_jump_target :
    specRemovable c5nodes 20 = false ∧
      (runCollector c5nodes).removable 20 = true := by
  decide

/-- C3 counterexample: two Projs with labels 5 and 7 remain, the
selector is the known constant 5, and the default Proj number is 5, so
the default projection's case label equals the selector value.  The
claim says the default is replaced by a jump, the other by Bad, and
`true` is returned; the code performs no exchange and returns `false`
(it only compares the constant against the *other* projection's label). -/
theorem C3_counterexample_default_label_matches :
    handle_switch_cond c3cond
      = { acts := [], changed := false, assertOk := true } := by
  decide

/-- C3 (amended): with exactly two projections remaining and a known
constant selector `v`, when the default projection's case label equals
`v` and the other projection's label does not, `handle_switch_cond`
leaves the graph unchanged and returns `false`: the fold fires only
when the label of the projection the branch compares (the non-default
one) equals `v`. -/
theorem C3_default_label_match_is_no_fold (c : SwitchCond) (p1 p2 v : Int)
    (hchain : c.chain = [p1, p2]) (hsel : c.selVal = some v) :
    (c.defaultPn = p1 → v = p1 → v ≠ p2 →
      handle_switch_cond c = { acts := [], changed := false, assertOk := true }) ∧
    (c.defaultPn ≠ p1 → c.defaultPn = p2 → v = p2 → v ≠ p1 →
      handle_switch_cond c = { acts := [], changed := false, assertOk := true }) := by
  constructor
  · intro hd hv1 hv2
    simp [handle_switch_cond, hchain, hsel, hd, hv2]
  · intro hd1 hd2 hv2 hv1
    have hne : ¬(p2 = p1) := fun hh => hd1 (hd2.trans hh)
    simp [handle_switch_cond, hchain, hsel, hd2, hne, hv1]

theorem C3_witness :
    handle_switch_cond c3condW = { acts := [], changed := false, assertOk := true } ∧
    handle_switch_cond c3condW2 = { acts := [], changed := false, assertOk := true } :=
  ⟨(C3_default_label_match_is_no_fold c3condW 2 9 2 rfl rfl).1 rfl rfl (by decide),
   (C3_default_label_match_is_no_fold c3condW2 2 9 9 rfl rfl).2 (by decide) rfl rfl
     (by decide)⟩

/-- C8: when exactly one projection remains on a multi-way branch, it is
replaced by a freshly created unconditional jump in the branch's block
and `true` is returned; the code's `assert` holds exactly when that
projection is the default projection. -/
theorem C8_single_proj_becomes_jmp (c : SwitchCond) (p1 : Int)
    (hchain : c.chain = [p1]) :
    (handle_switch_cond c).acts = [SwAct.toJmp p1 c.inBlock] ∧
    (handle_switch_cond c).changed = true ∧
    ((handle_switch_cond c).assertOk = true ↔ c.defaultPn = p1) := by
  simp [handle_switch_cond, hchain, beq_iff_eq]

theorem C8_witness :
    (handle_switch_cond c8cond).acts = [SwAct.toJmp 3 c8cond.inBlock] ∧
    (handle_switch_cond c8cond).changed = true ∧
    ((handle_switch_cond c8cond).assertOk = true ↔ c8cond.defaultPn = 3) :=
  C8_single_proj_becomes_jmp c8cond 3 rfl

/-- C9: with exactly two projections remaining, a known constant
selector `v`, and a recorded default Proj number matching neither
label, the code still folds: the projection whose label equals `v`
becomes a jump in the branch's block, the other becomes Bad, and `true`
is returned; when `v` matches neither label nothing changes and `false`
is returned. -/
theorem C9_neither_is_default (c : SwitchCond) (p1 p2 v : Int)
    (hchain : c.chain = [p1, p2]) (hsel : c.selVal = some v)
    (hd1 : c.defaultPn ≠ p1) (hd2 : c.defaultPn ≠ p2) :
    (v = p1 →
      handle_switch_cond c
        = { acts := [SwAct.toJmp p1 c.inBlock, SwAct.toBad p2],
            changed := true, assertOk := true }) ∧
    (v ≠ p1 → v = p2 →
      handle_switch_cond c
        = { acts := [SwAct.toJmp p2 c.inBlock, SwAct.toBad p1],
            changed := true, assertOk := true }) ∧
    (v ≠ p1 → v ≠ p2 →
      handle_switch_cond c
        = { acts := [], changed := false, assertOk := true }) := by
  refine ⟨fun h1 => ?_, fun h1 h2 => ?_, fun h1 h2 => ?_⟩
  · subst h1
    simp [handle_switch_cond, hchain, hsel, hd1, hd2]
  · subst h2
    simp [handle_switch_cond, hchain, hsel, hd1, hd2, h1]
  · simp [handle_switch_cond, hchain, hsel, hd1, hd2, h1, h2]

theorem C9_witness :
    handle_switch_cond c9cond
      = { acts := [SwAct.toJmp 4 1, SwAct.toBad 6], changed := true, assertOk := true } ∧
    handle_switch_cond c9cond2
      = { acts := [SwAct.toJmp 6 1, SwAct.toBad 4], changed := true, assertOk := true } ∧
    handle_switch_cond c9cond3
      = { acts := [], changed := false, assertOk := true } :=
  ⟨(C9_neither_is_default c9cond 4 6 4 rfl rfl (by decide) (by decide)).1 rfl,
   (C9_neither_is_default c9cond2 4 6 6 rfl rfl (by decide) (by decide)).2.1
     (by decide) rfl,
   (C9_neither_is_default c9cond3 4 6 5 rfl rfl (by decide) (by decide)).2.2
     (by decide) (by decide)⟩

/-! ### Claim theorems: the dispensability oracle -/

/-- C4 (amended): on every non-dispensable path
`test_whether_dispensable` returns 1, but `removable(P) := false` is
written only on the `non_dispensable:` paths (self-loop, unknown jump,
join-input merge conflict); the Bad-slot, already-non-removable and
already-visited paths return 1 without touching the mark, so a
removable but already-visited predecessor keeps `removable = true`. -/
theorem C4_nondispensable_paths (g : Graph) (b : BlockId) (pos : Nat) :
    ((g.blk b).preds[pos]? = some CfgPred.bad →
        test_whether_dispensable g b pos = (1, g)) ∧
    (∀ predb u, (g.blk b).preds[pos]? = some (CfgPred.edge predb u) →
        (g.blk predb).removable = false →
        test_whether_dispensable g b pos = (1, g)) ∧
    (∀ u, (g.blk b).preds[pos]? = some (CfgPred.edge b u) →
        (g.blk b).removable = true →
        test_whether_dispensable g b pos = (1, markNonRemovable g b)) ∧
    (∀ predb, (g.blk b).preds[pos]? = some (CfgPred.edge predb true) →
        (g.blk predb).removable = true → predb ≠ b →
        test_whether_dispensable g b pos = (1, markNonRemovable g predb)) ∧
    (∀ predb, (g.blk b).preds[pos]? = some (CfgPred.edge predb false) →
        (g.blk predb).removable = true → predb ≠ b →
        (g.blk b).phis ≠ [] → mergeConflict g b pos predb = true →
        test_whether_dispensable g b pos = (1, markNonRemovable g predb)) ∧
    (∀ predb, (g.blk b).preds[pos]? = some (CfgPred.edge predb false) →
        (g.blk predb).removable = true → predb ≠ b →
        ¬((g.blk b).phis ≠ [] ∧ mergeConflict g b pos predb = true) →
        (g.blk predb).visited = true →
        test_whether_dispensable g b pos = (1, g) ∧
        ((test_whether_dispensable g b pos).2.blk predb).removable = true) := by
  refine ⟨fun h => ?_, fun predb u h hrem => ?_, fun u h hrem => ?_,
    fun predb h hrem hne => ?_, fun predb h hrem hne hphis hconf => ?_,
    fun predb h hrem hne hconf hvis => ?_⟩
  · simp [test_whether_dispensable, h]
  · simp [test_whether_dispensable, h, hrem]
  · simp [test_whether_dispensable, h, hrem]
  · simp [test_whether_dispensable, h, hrem, hne]
  · simp [test_whether_dispensable, h, hrem, hne, hphis, hconf]
  · have heq : test_whether_dispensable g b pos = (1, g) := by
      simp [test_whether_dispensable, h, hrem, hne, hconf, hvis]
    exact ⟨heq, by rw [heq]; exact hrem⟩

/-- C4 counterexample: block `0`'s predecessor `1` is removable but
already visited; `test_whether_dispensable` judges the slot
non-dispensable (returns 1) yet leaves `removable(1) = true`, contrary
to the claim that every non-dispensable reason also sets
`removable(P) := false`. -/
theorem C4_counterexample_visited_not_memoized :
    (test_whether_dispensable gC4x 0 0).1 = 1 ∧
      ((test_whether_dispensable gC4x 0 0).2.blk 1).removable = true := by
  decide

theorem C4_witness :
    test_whether_dispensable gC4w 0 0 = (1, gC4w) ∧
    test_whether_dispensable gC4w 0 1 = (1, gC4w) ∧
    test_whether_dispensable gC4w 0 2 = (1, markNonRemovable gC4w 0) ∧
    test_whether_dispensable gC4w 0 3 = (1, markNonRemovable gC4w 2) ∧
    test_whether_dispensable gC4c 0 1 = (1, markNonRemovable gC4c 11) ∧
    (test_whether_dispensable gC4w 0 4 = (1, gC4w) ∧
      ((test_whether_dispensable gC4w 0 4).2.blk 3).removable = true) :=
  ⟨(C4_nondispensable_paths gC4w 0 0).1 (by decide),
   (C4_nondispensable_paths gC4w 0 1).2.1 1 false (by decide) (by decide),
   (C4_nondispensable_paths gC4w 0 2).2.2.1 false (by decide) (by decide),
   (C4_nondispensable_paths gC4w 0 3).2.2.2.1 2 (by decide) (by decide) (by decide),
   (C4_nondispensable_paths gC4c 0 1).2.2.2.2.1 11 (by decide) (by decide)
     (by decide) (by decide) (by decide),
   (C4_nondispensable_paths gC4w 0 4).2.2.2.2.2 3 (by decide) (by decide)
     (by decide) (by decide) (by decide)⟩

/-! ### Claim theorems: the moved-Phi arity bug and the fixpoint claim -/

/-- C1: on `gC1` the pass completes with Phi `50` moved into the
surviving block `100`, whose rewritten cfgpred vector has three slots,
while the moved Phi's in-array has only two entries: the `q_preds` loop
contributed nothing for the Bad cfgpred of the other dispensable
predecessor that the `n_preds` loop turns into a Bad slot.  The
invariant `arity(phi) = |cfgpreds(block(phi))|` claimed for the rewrite
is violated by the code on this input (the source's disabled
`p_preds == q_preds` "Wrong Phi Fix" assertion). -/
theorem C1_moved_phi_arity_mismatch :
    ((optimize_cf gC1).graph.blk 100).preds.length = 3 ∧
    ((optimize_cf gC1).graph.phiIns 50).length = 2 ∧
    (optimize_cf gC1).graph.nodeBlock 50 = 100 ∧
    (optimize_cf gC1).graph.exchangedTo 50 = none ∧
    100 ∈ liveBlocks (optimize_cf gC1).graph := by
  decide

/-- C2 counterexample: on the one-block procedure `gOne2` a second
invocation of `optimize_cf` immediately after the first reports
`changed = true`, not `false` as claimed: `optimize_blocks`
unconditionally records a change for every block it visits. -/
theorem C2_counterexample_second_run_changed :
    (optimize_cf ((optimize_cf gOne2).graph)).changed = true := by
  decide

/-! ### Lemmas: the unconditional `changed` of the block walk -/

theorem blockFix_env (g : Graph) (b : BlockId) (env : Env) :
    (blockFix g b env).2 = { env with changed := true } := rfl

theorem optimize_blocks_changed (g : Graph) (b : BlockId) (env : Env) :
    ((optimize_blocks g b env).2).changed = true := rfl

theorem visitBlock_changed_mono (g : Graph) (env : Env) (b : BlockId)
    (h : env.changed = true) : ((visitBlock g env b).2).changed = true := by
  unfold visitBlock
  split
  · exact h
  · exact optimize_blocks_changed _ _ _

theorem visitBlock_changed_of_live (g : Graph) (env : Env) (b : BlockId)
    (h : (g.blk b).dead = false) : ((visitBlock g env b).2).changed = true := by
  simp only [visitBlock, h]
  exact optimize_blocks_changed _ _ _

theorem visitBlock_dead (g : Graph) (env : Env) (b : BlockId)
    (h : (g.blk b).dead = true) : visitBlock g env b = (g, env) := by
  simp [visitBlock, h]

theorem blockWalk_changed_mono (l : List BlockId) : ∀ g env, env.changed = true →
    ((blockWalk g env l).2).changed = true := by
  induction l with
  | nil => intro g env h; exact h
  | cons a t ih =>
      intro g env h
      simp only [blockWalk]
      exact ih _ _ (visitBlock_changed_mono g env a h)

theorem blockWalk_changed_of_mem (l : List BlockId) : ∀ g env b, b ∈ l →
    (g.blk b).dead = false → ((blockWalk g env l).2).changed = true := by
  induction l with
  | nil => intro g env b h; exact absurd h (List.not_mem_nil b)
  | cons a t ih =>
      intro g env b hmem hdead
      by_cases ha : (g.blk a).dead = true
      · rcases List.mem_cons.mp hmem with h1 | h1
        · rw [h1] at hdead
          simp [hdead] at ha
        · simp only [blockWalk, visitBlock_dead g env a ha]
          exact ih g env b h1 hdead
      · have ha' : (g.blk a).dead = false := by simpa using ha
        simp only [blockWalk]
        exact blockWalk_changed_mono t _ _ (visitBlock_changed_of_live g env a ha')

theorem remove_simple_changed_mono (g : Graph) (b : BlockId) (env : Env)
    (h : env.changed = true) : ((remove_simple_blocks g b env).2).changed = true := by
  unfold remove_simple_blocks
  split
  · exact h
  · by_cases hnb : equivalent_block g b = b
    · simp only [hnb, if_pos rfl]
      exact h
    · simp only [if_neg hnb]

theorem removeSimpleWalk_changed_mono (l : List BlockId) : ∀ g env, env.changed = true →
    ((removeSimpleWalk g env l).2).changed = true := by
  induction l with
  | nil => intro g env h; exact h
  | cons a t ih =>
      intro g env h
      simp only [removeSimpleWalk]
      exact ih _ _ (remove_simple_changed_mono g a env h)

theorem collectorReset_blocks (g : Graph) : (collectorReset g).blocks = g.blocks := rfl

theorem collectorReset_blk_preds (g : Graph) (x : BlockId) :
    ((collectorReset g).blk x).preds = (g.blk x).preds := rfl

theorem collectorReset_blk_dead (g : Graph) (x : BlockId) :
    ((collectorReset g).blk x).dead = (g.blk x).dead := rfl

theorem foldConds_blk (g : Graph) : (foldConds g).1.blk = g.blk := rfl

theorem foldConds_blocks (g : Graph) : (foldConds g).1.blocks = g.blocks := rfl

theorem switchLoop_blocks (fuel : Nat) : ∀ g, (switchLoop fuel g).blocks = g.blocks := by
  induction fuel with
  | zero => intro g; rfl
  | succ n ih =>
      intro g
      simp only [switchLoop]
      split
      · rw [ih]; rfl
      · rfl

theorem switchLoop_blk_dead (fuel : Nat) :
    ∀ g x, ((switchLoop fuel g).blk x).dead = (g.blk x).dead := by
  induction fuel with
  | zero => intro g x; rfl
  | succ n ih =>
      intro g x
      simp only [switchLoop]
      split
      · rw [ih]; rfl
      · rfl

theorem cfPrep_blocks (g : Graph) : (cfPrep g).blocks = g.blocks :=
  switchLoop_blocks _ g

theorem cfPrep_blk_dead (g : Graph) (x : BlockId) :
    ((cfPrep g).blk x).dead = (g.blk x).dead :=
  switchLoop_blk_dead _ g x

theorem optimize_cf_changed_of_live (g : Graph)
    (h : liveBlocks g ≠ []) : (optimize_cf g).changed = true := by
  obtain ⟨b, hb⟩ := List.exists_mem_of_ne_nil _ h
  rw [liveBlocks, List.mem_filter] at hb
  obtain ⟨hmem, hpred⟩ := hb
  have hdead : (g.blk b).dead = false := by simpa using hpred
  have hmem' : b ∈ (cfPrep g).blocks := by rw [cfPrep_blocks]; exact hmem
  have hdead' : ((cfPrep g).blk b).dead = false := by rw [cfPrep_blk_dead]; exact hdead
  exact removeSimpleWalk_changed_mono _ _ _
    (blockWalk_changed_of_mem _ _ _ b hmem' hdead')

/-! ### Claim theorems: the unconditional change report -/

/-- C10: `optimize_blocks` sets `env->changed` unconditionally after
rewriting the block's cfgpred vector, for every visited block; hence
after the block walk `changed` is true whenever the graph has at least
one (live) block, and `optimize_cf` then invalidates the dominator,
extended-block and entity-usage caches on every such run. -/
theorem C10_every_visit_sets_changed :
    (∀ g b env, ((optimize_blocks g b env).2).changed = true) ∧
    (∀ g, liveBlocks g ≠ [] →
      (optimize_cf g).changed = true ∧
      (optimize_cf g).domsInvalidated = true ∧
      (optimize_cf g).extblkInvalidated = true ∧
      (optimize_cf g).entityUsageInvalidated = true) := by
  refine ⟨fun g b env => optimize_blocks_changed g b env, fun g h => ?_⟩
  have hc := optimize_cf_changed_of_live g h
  exact ⟨hc, hc, hc, hc⟩

theorem C10_witness :
    ((optimize_blocks gTen 4 { changed := false, phis_moved := false }).2).changed = true ∧
    (optimize_cf gTen).changed = true ∧
    (optimize_cf gTen).domsInvalidated = true ∧
    (optimize_cf gTen).extblkInvalidated = true ∧
    (optimize_cf gTen).entityUsageInvalidated = true :=
  ⟨C10_every_visit_sets_changed.1 gTen 4 { changed := false, phis_moved := false },
   (C10_every_visit_sets_changed.2 gTen (by decide)).1,
   (C10_every_visit_sets_changed.2 gTen (by decide)).2.1,
   (C10_every_visit_sets_changed.2 gTen (by decide)).2.2.1,
   (C10_every_visit_sets_changed.2 gTen (by decide)).2.2.2⟩

/-- C2 (amended): `optimize_cf` is *not* observed as a no-op the second
time: because the block rewrite records a change for every visited
block, a second invocation immediately after the first reports
`changed = true` (and re-invalidates the caches) whenever the rewritten
graph still has at least one live block — it never reports
`changed = false` there. -/
theorem C2_second_invocation_still_changed (g : Graph)
    (h : liveBlocks (optimize_cf g).graph ≠ []) :
    (optimize_cf ((optimize_cf g).graph)).changed = true :=
  optimize_cf_changed_of_live _ h

theorem C2_witness :
    liveBlocks (optimize_cf gOne).graph ≠ [] ∧
    (optimize_cf ((optimize_cf gOne).graph)).changed = true :=
  ⟨by decide, C2_second_invocation_still_changed gOne (by decide)⟩

/-! ### Lemmas: Phase B of `optimize_blocks` -/

theorem exchangeNode_idom (g : Graph) (o : NodeId) (v : Val) :
    (exchangeNode g o v).idom = g.idom := rfl

theorem exchangeNode_phiMode (g : Graph) (o : NodeId) (v : Val) :
    (exchangeNode g o v).phiMode = g.phiMode := rfl

theorem exchangeNode_nodeBlock (g : Graph) (o : NodeId) (v : Val) :
    (exchangeNode g o v).nodeBlock = g.nodeBlock := rfl

theorem exchangeNode_blk (g : Graph) (o : NodeId) (v : Val) :
    (exchangeNode g o v).blk = g.blk := rfl

theorem exchangeNode_exchangedTo_self (g : Graph) (o : NodeId) (v : Val) :
    (exchangeNode g o v).exchangedTo o = some v := by
  simp [exchangeNode]

theorem exchangeNode_exchangedTo_ne (g : Graph) (o : NodeId) (v : Val)
    (x : NodeId) (h : x ≠ o) :
    (exchangeNode g o v).exchangedTo x = g.exchangedTo x := by
  simp [exchangeNode, h]

theorem movePhi_idom (g : Graph) (b : BlockId) (phi : NodeId) :
    (movePhi g b phi).idom = g.idom := rfl

theorem movePhi_phiMode (g : Graph) (b : BlockId) (phi : NodeId) :
    (movePhi g b phi).phiMode = g.phiMode := rfl

theorem movePhi_exchangedTo (g : Graph) (b : BlockId) (phi : NodeId) :
    (movePhi g b phi).exchangedTo = g.exchangedTo := rfl

theorem movePhi_nodeBlock_self (g : Graph) (b : BlockId) (phi : NodeId) :
    (movePhi g b phi).nodeBlock phi = b := by
  simp [movePhi, setBlk]

theorem movePhi_nodeBlock_ne (g : Graph) (b : BlockId) (phi x : NodeId)
    (h : x ≠ phi) : (movePhi g b phi).nodeBlock x = g.nodeBlock x := by
  simp [movePhi, setBlk, h]

theorem movePhi_blk_phis (g : Graph) (b : BlockId) (phi : NodeId) :
    ((movePhi g b phi).blk b).phis = phi :: (g.blk b).phis := by
  simp [movePhi, setBlk]

theorem applyNewIns_idom (g : Graph) (phi : NodeId) (ins : List Val) :
    (applyNewIns g phi ins).idom = g.idom := by
  unfold applyNewIns
  match ins with
  | [] => rfl
  | [v] => rfl
  | v :: w :: t => rfl

theorem applyNewIns_phiMode (g : Graph) (phi : NodeId) (ins : List Val) :
    (applyNewIns g phi ins).phiMode = g.phiMode := by
  unfold applyNewIns
  match ins with
  | [] => rfl
  | [v] => rfl
  | v :: w :: t => rfl

theorem applyNewIns_nodeBlock (g : Graph) (phi : NodeId) (ins : List Val) :
    (applyNewIns g phi ins).nodeBlock = g.nodeBlock := by
  unfold applyNewIns
  match ins with
  | [] => rfl
  | [v] => rfl
  | v :: w :: t => rfl

theorem applyNewIns_blk (g : Graph) (phi : NodeId) (ins : List Val) :
    (applyNewIns g phi ins).blk = g.blk := by
  unfold applyNewIns
  match ins with
  | [] => rfl
  | [v] => rfl
  | v :: w :: t => rfl

theorem applyNewIns_exchangedTo_ne (g : Graph) (phi : NodeId) (ins : List Val)
    (x : NodeId) (h : x ≠ phi) :
    (applyNewIns g phi ins).exchangedTo x = g.exchangedTo x := by
  unfold applyNewIns
  match ins with
  | [] => rfl
  | [v] => exact exchangeNode_exchangedTo_ne g phi v x h
  | v :: w :: t => rfl

theorem phaseB_phis_go_phis_moved_mono (b : BlockId) (k : Nat) (predb : BlockId)
    (l : List NodeId) : ∀ g env, env.phis_moved = true →
    ((phaseB_phis_go b k predb g env l).2).phis_moved = true := by
  induction l with
  | nil => intro g env h; exact h
  | cons a t ih =>
      intro g env h
      simp only [phaseB_phis_go]
      split
      · exact ih _ _ h
      · exact ih _ _ rfl

theorem phaseB_phis_go_exchangedTo_stable (b : BlockId) (k : Nat) (predb : BlockId)
    (phi : NodeId) (l : List NodeId) : ∀ g env, phi ∉ l →
    ((phaseB_phis_go b k predb g env l).1).exchangedTo phi = g.exchangedTo phi := by
  induction l with
  | nil => intro g env _; rfl
  | cons a t ih =>
      intro g env hnot
      have hna : phi ≠ a := fun hh => hnot (hh ▸ List.mem_cons_self a t)
      have hnt : phi ∉ t := fun hh => hnot (List.mem_cons_of_mem a hh)
      simp only [phaseB_phis_go]
      split
      · rw [ih _ _ hnt, exchangeNode_exchangedTo_ne _ _ _ _ hna]
      · rw [ih _ _ hnt, applyNewIns_exchangedTo_ne _ _ _ _ hna, movePhi_exchangedTo]

theorem phaseB_phis_go_nodeBlock_stable (b : BlockId) (k : Nat) (predb : BlockId)
    (phi : NodeId) (l : List NodeId) : ∀ g env, phi ∉ l →
    ((phaseB_phis_go b k predb g env l).1).nodeBlock phi = g.nodeBlock phi := by
  induction l with
  | nil => intro g env _; rfl
  | cons a t ih =>
      intro g env hnot
      have hna : phi ≠ a := fun hh => hnot (hh ▸ List.mem_cons_self a t)
      have hnt : phi ∉ t := fun hh => hnot (List.mem_cons_of_mem a hh)
      simp only [phaseB_phis_go]
      split
      · rw [ih _ _ hnt, exchangeNode_nodeBlock]
      · rw [ih _ _ hnt, applyNewIns_nodeBlock, movePhi_nodeBlock_ne _ _ _ _ hna]

theorem phaseB_phis_go_mem_stable (b : BlockId) (k : Nat) (predb : BlockId)
    (phi : NodeId) (l : List NodeId) : ∀ g env, phi ∈ (g.blk b).phis →
    phi ∈ (((phaseB_phis_go b k predb g env l).1).blk b).phis := by
  induction l with
  | nil => intro g env h; exact h
  | cons a t ih =>
      intro g env h
      simp only [phaseB_phis_go]
      split
      · exact ih _ _ (by rw [exchangeNode_blk]; exact h)
      · refine ih _ _ ?_
        rw [applyNewIns_blk, movePhi_blk_phis]
        exact List.mem_cons_of_mem a h

theorem phaseB_phis_go_kill (b : BlockId) (k : Nat) (predb : BlockId)
    (phi : NodeId) (l : List NodeId) : ∀ g env, g.idom b ≠ some predb →
    phi ∈ l → l.Nodup →
    ((phaseB_phis_go b k predb g env l).1).exchangedTo phi
      = some (Val.bad (g.phiMode phi)) := by
  induction l with
  | nil => intro g env _ h; exact absurd h (List.not_mem_nil phi)
  | cons a t ih =>
      intro g env hid hmem hnodup
      simp only [phaseB_phis_go, if_pos hid]
      by_cases hpa : phi = a
      · subst hpa
        have hnt : phi ∉ t := (List.nodup_cons.mp hnodup).1
        rw [phaseB_phis_go_exchangedTo_stable b k predb phi t _ _ hnt,
          exchangeNode_exchangedTo_self]
      · have hmt : phi ∈ t := (List.mem_cons.mp hmem).resolve_left hpa
        have := ih (exchangeNode g a (Val.bad (g.phiMode a))) env
          (by rw [exchangeNode_idom]; exact hid) hmt (List.nodup_cons.mp hnodup).2
        rwa [exchangeNode_phiMode] at this

theorem phaseB_phis_go_move (b : BlockId) (k : Nat) (predb : BlockId)
    (phi : NodeId) (l : List NodeId) : ∀ g env, g.idom b = some predb →
    phi ∈ l → l.Nodup →
    ((phaseB_phis_go b k predb g env l).1).nodeBlock phi = b ∧
    phi ∈ (((phaseB_phis_go b k predb g env l).1).blk b).phis ∧
    ((phaseB_phis_go b k predb g env l).2).phis_moved = true := by
  induction l with
  | nil => intro g env _ h; exact absurd h (List.not_mem_nil phi)
  | cons a t ih =>
      intro g env hid hmem hnodup
      have hnotid : ¬(g.idom b ≠ some predb) := fun hh => hh hid
      simp only [phaseB_phis_go, if_neg hnotid]
      by_cases hpa : phi = a
      · subst hpa
        have hnt : phi ∉ t := (List.nodup_cons.mp hnodup).1
        refine ⟨?_, ?_, ?_⟩
        · rw [phaseB_phis_go_nodeBlock_stable b k predb phi t _ _ hnt,
            applyNewIns_nodeBlock, movePhi_nodeBlock_self]
        · refine phaseB_phis_go_mem_stable b k predb phi t _ _ ?_
          rw [applyNewIns_blk, movePhi_blk_phis]
          exact List.mem_cons_self phi _
        · exact phaseB_phis_go_phis_moved_mono b k predb t _ _ rfl
      · have hmt : phi ∈ t := (List.mem_cons.mp hmem).resolve_left hpa
        refine ih _ _ ?_ hmt (List.nodup_cons.mp hnodup).2
        rw [applyNewIns_idom, movePhi_idom]
        exact hid

/-! ### Claim theorem: Phase B kills or moves the predecessor's Phis -/

/-- C7: in Phase B of `optimize_blocks`, for every Phi living in the
dispensable predecessor `predb` at position `k` of block `b`: if
`predb` is not the immediate dominator of `b`, the Phi is globally
exchanged for a Bad of its own mode; otherwise it is moved into `b`
(its home block becomes `b` and it is prepended to `b`'s link-chain)
and `phis_moved` is recorded. -/
theorem C7_phaseB_kill_or_move (g : Graph) (b : BlockId) (env : Env) (k : Nat)
    (predb : BlockId) (u : Bool) (phi : NodeId)
    (hpred : (g.blk b).preds[k]? = some (CfgPred.edge predb u))
    (hdisp : dispensableHere g predb = true)
    (hmem : phi ∈ (g.blk predb).phis)
    (hnodup : (g.blk predb).phis.Nodup) :
    (g.idom b ≠ some predb →
      ((phaseB_step g b env k).1).exchangedTo phi
        = some (Val.bad (g.phiMode phi))) ∧
    (g.idom b = some predb →
      ((phaseB_step g b env k).1).nodeBlock phi = b ∧
      phi ∈ (((phaseB_step g b env k).1).blk b).phis ∧
      ((phaseB_step g b env k).2).phis_moved = true) := by
  have hstep : phaseB_step g b env k
      = phaseB_phis_go b k predb g env (g.blk predb).phis := by
    simp [phaseB_step, hpred, hdisp]
  constructor
  · intro hid
    rw [hstep]
    exact phaseB_phis_go_kill b k predb phi _ g env hid hmem hnodup
  · intro hid
    rw [hstep]
    exact phaseB_phis_go_move b k predb phi _ g env hid hmem hnodup

/-! ### Lemmas: the self-loop-head invariant through the pass -/

theorem movePhi_blocks (g : Graph) (b : BlockId) (phi : NodeId) :
    (movePhi g b phi).blocks = g.blocks := rfl

theorem collectorReset_removable (g : Graph) (x : BlockId) :
    ((collectorReset g).blk x).removable
      = ((g.blk x).onlyJmpPhis && !(g.blk x).hasEntity) := rfl

theorem C7_witness :
    ((phaseB_step gC7w 0 { changed := false, phis_moved := false } 0).1).exchangedTo 40
        = some (Val.bad (gC7w.phiMode 40)) ∧
    (((phaseB_step gC7w 0 { changed := false, phis_moved := false } 1).1).nodeBlock 41 = 0 ∧
      41 ∈ (((phaseB_step gC7w 0 { changed := false, phis_moved := false } 1).1).blk 0).phis ∧
      ((phaseB_step gC7w 0 { changed := false, phis_moved := false } 1).2).phis_moved = true) :=
  ⟨(C7_phaseB_kill_or_move gC7w 0 { changed := false, phis_moved := false } 0 1 false 40
      (by decide) (by decide) (by decide) (by decide)).1 (by decide),
   (C7_phaseB_kill_or_move gC7w 0 { changed := false, phis_moved := false } 1 2 false 41
      (by decide) (by decide) (by decide) (by decide)).2 (by decide)⟩

end Cfopt
